import Mathlib

/-!
Verification of the real-time control core of the dat-ting audio-effects
firmware: the debouncing state machines, edge latches, quadrature encoder,
interrupt dispatch table, cooperative task scheduler, and the audio-block
dispatch loop.  Each definition is a shallow embedding of the corresponding
C++ code in `src/firmware`; machine times (microseconds) are modelled as
`Nat` under the assumption that successive timestamps are monotone (the
firmware's `System2::GetUs` counter, restricted to the non-wrapping regime).
-/

namespace DatTing

/-! ## Debounce engine (`src/firmware/inc/debounce.h`, class `Debouncer`) -/

/-- Debouncing states (`Debouncer::State`). -/
inductive DebState | low | lowSettling | high | highSettling
deriving DecidableEq, Repr

/-- The debouncer's mutable state: the current `State` and `tLastCheck`,
the time of the last call to `Debounce`/`GetValue`. -/
structure Debouncer where
  state : DebState
  tLastCheck : Nat
deriving DecidableEq, Repr

/-- `Debouncer::dtSettlingTime` (2000 microseconds). -/
def dtSettlingTime : Nat := 2000

/-- `Debouncer::CheckSettled`, with the current time `t` passed explicitly
(the C++ reads `System2::GetUs()`).  `dt = t - tLastCheck` is the time since
the previous check; if it reaches the settling threshold, a `*Settling`
state collapses to its stable form.  `tLastCheck` is updated on every call. -/
def Debouncer.checkSettled (d : Debouncer) (t : Nat) : Debouncer :=
  let dt := t - d.tLastCheck
  let st :=
    if dt ≥ dtSettlingTime then
      match d.state with
      | DebState.lowSettling => DebState.low
      | DebState.highSettling => DebState.high
      | s => s
    else d.state
  { state := st, tLastCheck := t }

/-- `Debouncer::StateIsHigh`. -/
def DebState.isHigh : DebState → Bool
  | DebState.high => true
  | DebState.highSettling => true
  | _ => false

/-- `Debouncer::Debounce(updown)` at current time `t`.
Returns the new state plus the pair `(fHigh, fChanged)`. -/
def Debouncer.debounce (d : Debouncer) (t : Nat) (updown : Int) :
    Debouncer × Bool × Bool :=
  let d1 := d.checkSettled t
  if d1.state = DebState.low ∧ updown > 0 then
    ({ d1 with state := DebState.highSettling }, DebState.highSettling.isHigh, true)
  else if d1.state = DebState.high ∧ updown < 0 then
    ({ d1 with state := DebState.lowSettling }, DebState.lowSettling.isHigh, true)
  else
    (d1, d1.state.isHigh, false)

/-- `Debouncer::GetValue` at current time `t`: checks settling, returns
whether the debounced input is high. -/
def Debouncer.getValue (d : Debouncer) (t : Nat) : Debouncer × Bool :=
  let d1 := d.checkSettled t
  (d1, d1.state.isHigh)

/-- Initial debouncer state (`state = State::low`, `tLastCheck = 0`). -/
def Debouncer.initial : Debouncer := { state := DebState.low, tLastCheck := 0 }

/-! ## Switch (`src/firmware/inc/switch2.h`, class `Switch`)

Only the state observable through the claims is modelled: the polarity,
the embedded `Debouncer`, and the two edge-latch flags `turnedOn` /
`turnedOff`.  The GPIO pin read is passed in as the boolean `pinHigh`,
and the optional change callback (which receives the same `fIsOn` value
and does not touch the latches) is omitted. -/

/-- `Switch::Polarity`. -/
inductive Polarity | onLow | onHigh
deriving DecidableEq, Repr

/-- The `Switch` state. -/
structure Switch where
  polarity : Polarity
  deb : Debouncer
  turnedOn : Bool
  turnedOff : Bool
deriving DecidableEq, Repr

/-- `Switch::OnOffFromHighLow`: maps the debounced high/low value through
the configured polarity. -/
def Switch.onOffFromHighLow (sw : Switch) (fHigh : Bool) : Bool :=
  match sw.polarity with
  | Polarity.onHigh => fHigh
  | Polarity.onLow => !fHigh

/-- `Switch::Debounce` at time `t` with raw pin level `pinHigh`.
Returns the new state, `fIsOn` (the C++ return value), and two extra
booleans recording whether this call set the `turnedOn` (resp. `turnedOff`)
latch, i.e. the conditions `fChanged && fIsOn` / `fChanged && !fIsOn`
under which the C++ writes each flag. -/
def Switch.debounceStep (sw : Switch) (t : Nat) (pinHigh : Bool) :
    Switch × Bool × Bool × Bool :=
  let updown : Int := if pinHigh then 1 else -1
  let r := sw.deb.debounce t updown
  let fChanged := r.2.2
  let fIsOn := sw.onOffFromHighLow r.2.1
  let onEdge := fChanged && fIsOn
  let offEdge := fChanged && !fIsOn
  ({ sw with
      deb := r.1
      turnedOn := if onEdge then true else sw.turnedOn
      turnedOff := if offEdge then true else sw.turnedOff },
   fIsOn, onEdge, offEdge)

/-- `Switch::TurnedOn`: `turnedOn.exchange(false)` — returns the latch and
clears it. -/
def Switch.takeTurnedOn (sw : Switch) : Bool × Switch :=
  (sw.turnedOn, { sw with turnedOn := false })

/-- `Switch::TurnedOff`: `turnedOff.exchange(false)`. -/
def Switch.takeTurnedOff (sw : Switch) : Bool × Switch :=
  (sw.turnedOff, { sw with turnedOff := false })

/-- Run a sequence of `Switch::Debounce` calls, each given as a
`(time, raw pin level)` pair. -/
def Switch.runDebounce : Switch → List (Nat × Bool) → Switch
  | sw, [] => sw
  | sw, e :: es => ((sw.debounceStep e.1 e.2).1).runDebounce es

/-- Number of debounced off-to-on transitions occurring during a sequence
of `Switch::Debounce` calls (the calls that set the `turnedOn` latch). -/
def Switch.countOnEdges : Switch → List (Nat × Bool) → Nat
  | _, [] => 0
  | sw, e :: es =>
    let r := sw.debounceStep e.1 e.2
    (if r.2.2.1 then 1 else 0) + r.1.countOnEdges es

/-- Number of debounced on-to-off transitions during a sequence of
`Switch::Debounce` calls (the calls that set the `turnedOff` latch). -/
def Switch.countOffEdges : Switch → List (Nat × Bool) → Nat
  | _, [] => 0
  | sw, e :: es =>
    let r := sw.debounceStep e.1 e.2
    (if r.2.2.2 then 1 else 0) + r.1.countOffEdges es

/-! ## Gate (`src/firmware/src/CVIn.h`, class `CVInBase::Gate`)

The thresholded ADC comparison `GetRaw(input) >= Pins::ADCGateMin` is
passed in as the boolean `isHigh`. -/

/-- The per-channel gate tracker state. -/
structure Gate where
  deb : Debouncer
  wasHigh : Bool
  turnedOn : Bool
  turnedOff : Bool
deriving DecidableEq, Repr

/-- `Gate::Process` at time `t` with thresholded reading `isHigh`:
only when the raw reading differs from `wasHigh` does it run the
debouncer and (on a debounced change) set the corresponding latch. -/
def Gate.process (g : Gate) (t : Nat) (isHigh : Bool) : Gate :=
  if isHigh ≠ g.wasHigh then
    let r := g.deb.debounce t (if isHigh then 1 else -1)
    { deb := r.1
      wasHigh := isHigh
      turnedOn := if r.2.2 && isHigh then true else g.turnedOn
      turnedOff := if r.2.2 && !isHigh then true else g.turnedOff }
  else g

/-- `Gate::TurnedOn`: `turnedOn.exchange(false)`. -/
def Gate.takeTurnedOn (g : Gate) : Bool × Gate :=
  (g.turnedOn, { g with turnedOn := false })

/-- `Gate::TurnedOff`: `turnedOff.exchange(false)`. -/
def Gate.takeTurnedOff (g : Gate) : Bool × Gate :=
  (g.turnedOff, { g with turnedOff := false })

/-! ## Encoder (`src/firmware/inc/encoder2.h`, class `Encoder`)

The quadrature state machine and the acceleration heuristic.  The pin
levels are passed in already polarity-corrected (the C++ inverts both
levels for `Polarity::onLow` before indexing the table). -/

/-- `Encoder::State`: the 7 quadrature-decode states. -/
inductive EState | start | cw1 | plus | cw2 | ccw1 | minus | ccw2
deriving DecidableEq, Repr, Fintype

/-- `Encoder::stateTable`, indexed by (state, pin A level, pin B level). -/
def stateTable (s : EState) (fPinA fPinB : Bool) : EState :=
  match s, fPinA, fPinB with
  | EState.start, false, false => EState.start
  | EState.start, false, true  => EState.ccw1
  | EState.start, true,  false => EState.cw1
  | EState.start, true,  true  => EState.start
  | EState.cw1,   false, false => EState.start
  | EState.cw1,   false, true  => EState.start
  | EState.cw1,   true,  false => EState.cw1
  | EState.cw1,   true,  true  => EState.plus
  | EState.plus,  false, false => EState.start
  | EState.plus,  false, true  => EState.cw2
  | EState.plus,  true,  false => EState.cw1
  | EState.plus,  true,  true  => EState.plus
  | EState.cw2,   false, false => EState.start
  | EState.cw2,   false, true  => EState.cw2
  | EState.cw2,   true,  false => EState.start
  | EState.cw2,   true,  true  => EState.plus
  | EState.ccw1,  false, false => EState.start
  | EState.ccw1,  false, true  => EState.ccw1
  | EState.ccw1,  true,  false => EState.start
  | EState.ccw1,  true,  true  => EState.minus
  | EState.minus, false, false => EState.start
  | EState.minus, false, true  => EState.ccw1
  | EState.minus, true,  false => EState.ccw2
  | EState.minus, true,  true  => EState.minus
  | EState.ccw2,  false, false => EState.start
  | EState.ccw2,  false, true  => EState.start
  | EState.ccw2,  true,  false => EState.ccw2
  | EState.ccw2,  true,  true  => EState.minus

/-- `Encoder::UpdateEncoderState` on polarity-corrected pin levels:
steps the state through `stateTable` and emits +1 on a `cw1 → plus`
transition, -1 on a `ccw1 → minus` transition, 0 otherwise. -/
def updateEncoderState (s : EState) (fPinA fPinB : Bool) : EState × Int :=
  let s1 := stateTable s fPinA fPinB
  let change : Int :=
    if s1 = EState.plus ∧ s = EState.cw1 then 1
    else if s1 = EState.minus ∧ s = EState.ccw1 then -1
    else 0
  (s1, change)

/-- Feed a sequence of (pin A, pin B) level pairs through the encoder state
machine, accumulating the emitted position changes (the sum accumulated
into `encoderChange` by `OnEncoderInterrupt`). -/
def runEncoder : EState → List (Bool × Bool) → EState × Int
  | s, [] => (s, 0)
  | s, ab :: rest =>
    let r := updateEncoderState s ab.1 ab.2
    let r2 := runEncoder r.1 rest
    (r2.1, r.2 + r2.2)

/-- The sequence of states visited (after each input) when feeding a pin
sequence through the encoder state machine. -/
def encoderTrace : EState → List (Bool × Bool) → List EState
  | _, [] => []
  | s, ab :: rest =>
    let s1 := (updateEncoderState s ab.1 ab.2).1
    s1 :: encoderTrace s1 rest

/-- `Encoder::GetChangeAccel`'s `fastCountThreshold` constant. -/
def fastCountThreshold : Nat := 3

/-- `Encoder::GetChangeAccel`'s `fastFactor` constant. -/
def fastFactor : Int := 5

/-- `Encoder::GetChangeAccel`, as a function of the run counter
`fastCount` and the raw accumulated change just taken from `GetChange()`.
Returns the reported change and the new `fastCount`. -/
def getChangeAccel (fastCount : Nat) (change : Int) : Int × Nat :=
  if change = 0 then (0, 0)
  else if fastCount + 1 > fastCountThreshold then (change * fastFactor, fastCount + 1)
  else (change, fastCount + 1)

/-- Run a sequence of `GetChangeAccel` polls, the `i`-th poll reading raw
accumulated change `cs[i]`.  Returns the reported values and the final
`fastCount`. -/
def runAccel : Nat → List Int → List Int × Nat
  | fc, [] => ([], fc)
  | fc, c :: cs =>
    let r := getChangeAccel fc c
    let rs := runAccel r.2 cs
    (r.1 :: rs.1, rs.2)

/-! ## Task scheduler (`src/firmware/inc/tasks.h`, namespace `tasks`)

A task is its interval plus the `timer` field (next-due timestamp).
`execute()` is opaque to the scheduler, so a pass records, per task,
whether `execute()` was invoked.  The time `getCurrentMicros()` re-read
inside `tick` at dispatch is passed as `dispatchNow` (it is sampled after
`now >= timer` succeeds, immediately before `execute()` runs). -/

/-- `tasks::Task`: execution interval and next-due timestamp (`timer`). -/
structure Task where
  interval : Nat
  timer : Nat
deriving DecidableEq, Repr

/-- `tasks::Task::tick(now)`: if `now >= timer`, set
`timer = getCurrentMicros() + interval` (with `getCurrentMicros()` passed
as `dispatchNow`) and run `execute()`.  The boolean records whether
`execute()` ran. -/
def Task.tick (tk : Task) (now dispatchNow : Nat) : Task × Bool :=
  if now ≥ tk.timer then
    ({ tk with timer := dispatchNow + tk.interval }, true)
  else (tk, false)

/-- `tasks::TaskList::runAll`: fetch `now` once, then tick every task
exactly once, in order.  Each task is paired with the time
`getCurrentMicros()` returns at its dispatch. -/
def runAll (now : Nat) : List (Task × Nat) → List (Task × Bool)
  | [] => []
  | tkdt :: rest => tkdt.1.tick now tkdt.2 :: runAll now rest

/-! ## Interrupt dispatch (`src/firmware/inc/gpio2.h`, class `GPIO`)

`irqHandlers` is a 16-entry table indexed by the pin *number* (0-15)
alone, shared across all ports.  Handler objects are identified by `Nat`
ids; an empty slot is `none`.  `daisy::Pin` (external to this repository)
is modelled by its port, its pin number, and its `IsValid()` flag. -/

/-- Model of `daisy::Pin`: port index, pin number within the port, and
the `IsValid()` result (a default-constructed pin is invalid). -/
structure Pin where
  port : Nat
  pinNum : Fin 16
  valid : Bool
deriving DecidableEq, Repr

/-- The `GPIO::irqHandlers` table: one handler slot per pin number. -/
abbrev IrqTable := Fin 16 → Option Nat

/-- `GPIO::IsIrqAvailable(pin)`: true iff the pin is valid and the slot
for its pin number is empty. -/
def isIrqAvailable (tbl : IrqTable) (p : Pin) : Bool :=
  p.valid && (tbl p.pinNum).isNone

/-- The interrupt-registration part of `GPIO::Init` for an interrupt mode:
if the pin is invalid, `Init` returns early; otherwise it prints a warning
when `IsIrqAvailable` is false and then stores the handler in the slot for
the pin number, overwriting whatever was there.  Returns the new table and
whether the warning was printed. -/
def gpioInitIrq (tbl : IrqTable) (p : Pin) (h : Option Nat) : IrqTable × Bool :=
  if p.valid then
    (Function.update tbl p.pinNum h, !(isIrqAvailable tbl p))
  else (tbl, false)

/-- `GPIO::CallIrqHandler(pin)`: look up the handler for the pin number
(the `pin < 16` guard included) and invoke it if present.  Returns the id
of the handler whose `OnInterrupt` is invoked, if any. -/
def callIrqHandler (tbl : IrqTable) (pin : Nat) : Option Nat :=
  if h : pin < 16 then tbl ⟨pin, h⟩ else none

/-! ## Audio dispatch (`src/firmware/src/ProgList.h` and `Program.h`)

`HW::CVIn::_inCount` is 3 (`CV1`, `CV2`, `Pot`); the `CVInBase::inputs`
table holds 4 `Gate` trackers (`CV1`, `CV2`, `Pot`, and a duplicated
`CV1` entry).  Audio samples are modelled as `Int` lists; a `Program`'s
virtual `Process` is an arbitrary function from its arguments and the
output buffer's prior contents to the new output-buffer contents. -/

/-- `HW::CVIn::_inCount` (CV1, CV2, Pot). -/
abbrev inCount : Nat := 3

/-- Number of entries in the `CVInBase::inputs` table (CV1, CV2, Pot, and
the duplicated CV1 entry). -/
abbrev numGateInputs : Nat := 4

/-- `ProcessArgs` (`src/firmware/src/Program.h`): the audio input buffer
and the gate on/off flag arrays.  The output buffer is threaded separately
as explicit state (the C++ writes it in place). -/
structure ProcessArgs where
  inbuf : List Int
  fGateOn : Fin inCount → Bool
  fGateOff : Fin inCount → Bool

/-- `ProcessArgs::GateOn(input)`: the stored flag when `input` is in
range, `false` otherwise. -/
def ProcessArgs.GateOn (a : ProcessArgs) (input : Nat) : Bool :=
  if h : input < inCount then a.fGateOn ⟨input, h⟩ else false

/-- `ProcessArgs::GateOff(input)`: the stored flag when `input` is in
range, `false` otherwise. -/
def ProcessArgs.GateOff (a : ProcessArgs) (input : Nat) : Bool :=
  if h : input < inCount then a.fGateOff ⟨input, h⟩ else false

/-- A `Program` as seen by the dispatch: its virtual `Process`. -/
structure Prog where
  processFn : ProcessArgs → List Int → List Int

/-- The hardware state touched by the audio dispatch: the four gate
trackers and the pushbutton (`HW::button`). -/
structure HWState where
  gates : Fin numGateInputs → Gate
  button : Switch

/-- `HW::CVIn::UpdateGates` (the gate-refresh loop, `CVInBase::Process`):
run each gate tracker's `Process` exactly once, the `i`-th with its own
sample time `t i` and thresholded reading `raw i`. -/
def updateGates (s : HWState) (t : Fin numGateInputs → Nat)
    (raw : Fin numGateInputs → Bool) : HWState :=
  { s with gates := fun i => (s.gates i).process (t i) (raw i) }

/-- `Program::MakeProcessArgs`: builds the flag arrays by take-and-reset
of the edge latches of the CV1 gate, the CV2 gate, and the button, in
that order (`GateTurnedOn(CV1)`, `GateTurnedOn(CV2)`, `button.TurnedOn()`,
then the same for the off latches).  Returns the arguments and the state
with those six latches cleared. -/
def makeProcessArgs (s : HWState) (inbuf : List Int) : ProcessArgs × HWState :=
  let args : ProcessArgs :=
    { inbuf := inbuf
      fGateOn := ![(s.gates 0).turnedOn, (s.gates 1).turnedOn, s.button.turnedOn]
      fGateOff := ![(s.gates 0).turnedOff, (s.gates 1).turnedOff, s.button.turnedOff] }
  let s1 : HWState :=
    { gates := fun i =>
        if i.val ≤ 1 then { s.gates i with turnedOn := false, turnedOff := false }
        else s.gates i
      button := { s.button with turnedOn := false, turnedOff := false } }
  (args, s1)

/-- `ProgramListBase::ProcessingCallback`: refresh the gates, then, if a
current program is set, build `ProcessArgs` and call its `Process`.
Returns the new hardware state and the output buffer contents (unchanged
from `outbuf` when no program is current). -/
def processingCallback (cur : Option Prog) (s : HWState)
    (t : Fin numGateInputs → Nat) (raw : Fin numGateInputs → Bool)
    (inbuf outbuf : List Int) : HWState × List Int :=
  let s1 := updateGates s t raw
  match cur with
  | none => (s1, outbuf)
  | some p =>
    let r := makeProcessArgs s1 inbuf
    (r.2, p.processFn r.1 outbuf)

/-! ## Program switching (`ProgramListBase::RunProgram`)

`RunProgram` performs, in source order: `currentProgram = nullptr`,
then `prog->Init()` when `prog` is non-null, then
`currentProgram = prog`.  To reason about interleavings with the audio
dispatch, each of these three statements is one atomic step of a
transition system; programs are identified by `Nat` ids, and `inited p`
records whether a call to `p`'s `Init()` has completed. -/

/-- The switching thread's program counter: idle, or inside `RunProgram`
with the next statement to execute. -/
inductive SwPhase
  | idle
  | doClear (prog : Option Nat)
  | doInit (prog : Option Nat)
  | doPublish (prog : Option Nat)
deriving DecidableEq, Repr

/-- Shared state: `currentProgram`, which programs have completed an
`Init()`, and the switcher's program counter. -/
structure ProgCfg where
  currentProgram : Option Nat
  inited : Nat → Bool
  sw : SwPhase

/-- Startup state: no current program, no `Init()` completed, switcher
idle. -/
def ProgCfg.startup : ProgCfg :=
  { currentProgram := none, inited := fun _ => false, sw := SwPhase.idle }

/-- One atomic step of the interleaving of `RunProgram` (its three
statements) with the audio dispatch.  A `dispatch` step reads
`currentProgram` and, when it is `some p`, invokes `p`'s `Process`; it
modifies none of the fields modelled here. -/
inductive ProgStep : ProgCfg → ProgCfg → Prop
  | start (prog : Option Nat) (c : ProgCfg) (h : c.sw = SwPhase.idle) :
      ProgStep c { c with sw := SwPhase.doClear prog }
  | clear (prog : Option Nat) (c : ProgCfg) (h : c.sw = SwPhase.doClear prog) :
      ProgStep c { c with currentProgram := none, sw := SwPhase.doInit prog }
  | initSome (p : Nat) (c : ProgCfg) (h : c.sw = SwPhase.doInit (some p)) :
      ProgStep c { c with inited := Function.update c.inited p true,
                          sw := SwPhase.doPublish (some p) }
  | initNone (c : ProgCfg) (h : c.sw = SwPhase.doInit none) :
      ProgStep c { c with sw := SwPhase.doPublish none }
  | publish (prog : Option Nat) (c : ProgCfg) (h : c.sw = SwPhase.doPublish prog) :
      ProgStep c { c with currentProgram := prog, sw := SwPhase.idle }
  | dispatch (c : ProgCfg) : ProgStep c c

/-- Configurations reachable from startup under any interleaving. -/
inductive ProgReachable : ProgCfg → Prop
  | init : ProgReachable ProgCfg.startup
  | step {c c2 : ProgCfg} : ProgReachable c → ProgStep c c2 → ProgReachable c2

/-- Safety invariant for program switching: a published program, and a
program about to be published, has completed its `Init()`. -/
def ProgInv (c : ProgCfg) : Prop :=
  (∀ p, c.currentProgram = some p → c.inited p = true) ∧
  (∀ p, c.sw = SwPhase.doPublish (some p) → c.inited p = true)

/-! ## Concrete fixtures used to instantiate the general theorems -/

/-- A debouncer that entered `highSettling` at time 0, then was checked
at times 1500 and 2500 (the transition-time claim's scenario). -/
def cxDebouncerAfter : Debouncer :=
  ((((((Debouncer.mk DebState.low 0).debounce 0 1).1).getValue 1500).1).getValue 2500).1

/-- A valid pin: port 0, pin number 3. -/
def cxPinA : Pin := { port := 0, pinNum := 3, valid := true }

/-- A valid pin on a different port sharing pin number 3 with
`cxPinA`. -/
def cxPinB : Pin := { port := 1, pinNum := 3, valid := true }

/-- An empty interrupt-handler table. -/
def cxTbl0 : IrqTable := fun _ => none

/-- A gate tracker with both edge latches set. -/
def cxGate : Gate :=
  { deb := Debouncer.initial, wasHigh := false, turnedOn := true, turnedOff := true }

/-- A pushbutton switch with both edge latches set. -/
def cxButton : Switch :=
  { polarity := Polarity.onHigh, deb := Debouncer.initial
    turnedOn := true, turnedOff := true }

/-- A hardware state with every latch set. -/
def cxHW : HWState := { gates := fun _ => cxGate, button := cxButton }

/-- The all-zero gate sample times. -/
def cxT : Fin numGateInputs → Nat := fun _ => 0

/-- All-low thresholded gate readings. -/
def cxRaw : Fin numGateInputs → Bool := fun _ => false

/-- A program whose `Process` leaves the output buffer unchanged. -/
def cxProg : Prog := { processFn := fun _ outbuf => outbuf }

/-- A `ProcessArgs` value with all on-flags set and all off-flags
clear. -/
def cxArgs : ProcessArgs :=
  { inbuf := [], fGateOn := fun _ => true, fGateOff := fun _ => false }

/-- A freshly initialized active-high switch with cleared latches. -/
def cxFreshSwitch : Switch :=
  { polarity := Polarity.onHigh, deb := Debouncer.initial
    turnedOn := false, turnedOff := false }

/-- The debounce-call sequence high@0, low@3000, high@6000 producing two
off-to-on transitions and one on-to-off transition. -/
def cxEdgeSeq : List (Nat × Bool) := [(0, true), (3000, false), (6000, true)]

/-- The configuration after one complete `RunProgram` of program 7 from
startup. -/
def cxCfg7 : ProgCfg :=
  { currentProgram := some 7
    inited := Function.update (fun _ => false) 7 true
    sw := SwPhase.idle }

/-! ## Helper lemmas -/

/-- `runAll` produces one entry per task. -/
lemma runAll_length (now : Nat) (tasks : List (Task × Nat)) :
    (runAll now tasks).length = tasks.length := by
  induction tasks with
  | nil => rfl
  | cons hd tl ih => simpa [runAll] using ih

/-- Each entry of a `runAll` pass is the one `tick` of the corresponding
task. -/
lemma runAll_get (tasks : List (Task × Nat)) (now : Nat) :
    ∀ (i : Nat) (hi : i < tasks.length) (hi2 : i < (runAll now tasks).length),
      (runAll now tasks).get ⟨i, hi2⟩
        = (tasks.get ⟨i, hi⟩).1.tick now (tasks.get ⟨i, hi⟩).2 := by
  induction tasks with
  | nil => intro i hi; exact absurd hi (Nat.not_lt_zero i)
  | cons hd tl ih =>
    intro i hi hi2
    cases i with
    | zero => rfl
    | succ j =>
      have hj : j < tl.length := Nat.lt_of_succ_lt_succ hi
      have hj2 : j < (runAll now tl).length := by
        simpa [runAll_length] using hj
      simpa [runAll] using ih j hj hj2

/-- `runAccel` produces one reported value per poll. -/
lemma runAccel_length (fc : Nat) (cs : List Int) :
    (runAccel fc cs).1.length = cs.length := by
  induction cs generalizing fc with
  | nil => rfl
  | cons c cs ih => simpa [runAccel] using ih _

/-- During a run of polls that all read a non-zero raw change, the `i`-th
poll is scaled exactly when the run counter `fc + i + 1` has passed the
threshold. -/
lemma runAccel_get (cs : List Int) :
    ∀ (fc i : Nat) (hi : i < cs.length) (hi2 : i < (runAccel fc cs).1.length),
      (∀ c ∈ cs, c ≠ 0) →
      (runAccel fc cs).1.get ⟨i, hi2⟩
        = if fastCountThreshold < fc + i + 1 then cs.get ⟨i, hi⟩ * fastFactor
          else cs.get ⟨i, hi⟩ := by
  induction cs with
  | nil => intro fc i hi; exact absurd hi (Nat.not_lt_zero i)
  | cons c cs ih =>
    intro fc i hi hi2 hnz
    have hc : c ≠ 0 := hnz c (List.mem_cons_self c cs)
    cases i with
    | zero =>
      simp only [runAccel, getChangeAccel, if_neg hc, List.get]
      by_cases h3 : fastCountThreshold < fc + 1
      · simp [h3, Nat.add_zero]
      · simp [h3, Nat.add_zero]
    | succ j =>
      have hj : j < cs.length := Nat.lt_of_succ_lt_succ hi
      have hj2 : j < (runAccel ((getChangeAccel fc c).2) cs).1.length := by
        simpa [runAccel_length] using hj
      have hfc2 : (getChangeAccel fc c).2 = fc + 1 := by
        simp only [getChangeAccel, if_neg hc]
        by_cases h3 : fastCountThreshold < fc + 1 <;> simp [h3]
      have := ih (getChangeAccel fc c).2 j hj hj2 (fun x hx => hnz x (List.mem_cons_of_mem c hx))
      calc (runAccel fc (c :: cs)).1.get ⟨j + 1, hi2⟩
          = (runAccel (getChangeAccel fc c).2 cs).1.get ⟨j, hj2⟩ := rfl
        _ = if fastCountThreshold < (getChangeAccel fc c).2 + j + 1 then
              cs.get ⟨j, hj⟩ * fastFactor
            else cs.get ⟨j, hj⟩ := this
        _ = if fastCountThreshold < fc + (j + 1) + 1 then (c :: cs).get ⟨j + 1, hi⟩ * fastFactor
            else (c :: cs).get ⟨j + 1, hi⟩ := by
            rw [hfc2]
            have harith : fc + 1 + j + 1 = fc + (j + 1) + 1 := by omega
            rw [harith]; rfl

/-- A non-zero encoder increment is emitted only when the machine lands in
`plus` or `minus`. -/
lemma updateEncoderState_change_target :
    ∀ (s : EState) (a b : Bool), (updateEncoderState s a b).2 ≠ 0 →
      (updateEncoderState s a b).1 = EState.plus ∨
      (updateEncoderState s a b).1 = EState.minus := by decide

/-- A pin sequence whose state trajectory avoids `plus` and `minus`
accumulates no net change, from any starting state. -/
lemma runEncoder_no_detent (seq : List (Bool × Bool)) :
    ∀ (s : EState),
      (∀ st ∈ encoderTrace s seq, st ≠ EState.plus ∧ st ≠ EState.minus) →
      (runEncoder s seq).2 = 0 := by
  induction seq with
  | nil => intro s _; rfl
  | cons ab rest ih =>
    intro s htr
    have hhead : (updateEncoderState s ab.1 ab.2).1 ∈ encoderTrace s (ab :: rest) := by
      simp [encoderTrace]
    have hne := htr _ hhead
    have hzero : (updateEncoderState s ab.1 ab.2).2 = 0 := by
      by_contra hnz
      rcases updateEncoderState_change_target s ab.1 ab.2 hnz with h | h
      · exact hne.1 h
      · exact hne.2 h
    have htail : ∀ st ∈ encoderTrace (updateEncoderState s ab.1 ab.2).1 rest,
        st ≠ EState.plus ∧ st ≠ EState.minus := by
      intro st hst
      exact htr st (by simp [encoderTrace, hst])
    have := ih (updateEncoderState s ab.1 ab.2).1 htail
    simp [runEncoder, hzero, this]

/-- A `Switch::Debounce` call never clears the `turnedOn` latch. -/
lemma Switch.debounceStep_turnedOn_mono (sw : Switch) (t : Nat) (pinHigh : Bool)
    (h : sw.turnedOn = true) : ((sw.debounceStep t pinHigh).1).turnedOn = true := by
  simp only [Switch.debounceStep]
  split <;> simp [h]

/-- A `Switch::Debounce` call never clears the `turnedOff` latch. -/
lemma Switch.debounceStep_turnedOff_mono (sw : Switch) (t : Nat) (pinHigh : Bool)
    (h : sw.turnedOff = true) : ((sw.debounceStep t pinHigh).1).turnedOff = true := by
  simp only [Switch.debounceStep]
  split <;> simp [h]

/-- A `Switch::Debounce` call reporting an off-to-on transition sets the
`turnedOn` latch. -/
lemma Switch.debounceStep_turnedOn_set (sw : Switch) (t : Nat) (pinHigh : Bool)
    (h : (sw.debounceStep t pinHigh).2.2.1 = true) :
    ((sw.debounceStep t pinHigh).1).turnedOn = true := by
  simp only [Switch.debounceStep] at h ⊢
  simp [h]

/-- A `Switch::Debounce` call reporting an on-to-off transition sets the
`turnedOff` latch. -/
lemma Switch.debounceStep_turnedOff_set (sw : Switch) (t : Nat) (pinHigh : Bool)
    (h : (sw.debounceStep t pinHigh).2.2.2 = true) :
    ((sw.debounceStep t pinHigh).1).turnedOff = true := by
  simp only [Switch.debounceStep] at h ⊢
  simp [h]

/-- No sequence of `Switch::Debounce` calls clears the `turnedOn`
latch. -/
lemma Switch.runDebounce_turnedOn_mono :
    ∀ (es : List (Nat × Bool)) (sw : Switch), sw.turnedOn = true →
      (sw.runDebounce es).turnedOn = true := by
  intro es
  induction es with
  | nil => intro sw h; exact h
  | cons e rest ih =>
    intro sw h
    exact ih _ (sw.debounceStep_turnedOn_mono e.1 e.2 h)

/-- No sequence of `Switch::Debounce` calls clears the `turnedOff`
latch. -/
lemma Switch.runDebounce_turnedOff_mono :
    ∀ (es : List (Nat × Bool)) (sw : Switch), sw.turnedOff = true →
      (sw.runDebounce es).turnedOff = true := by
  intro es
  induction es with
  | nil => intro sw h; exact h
  | cons e rest ih =>
    intro sw h
    exact ih _ (sw.debounceStep_turnedOff_mono e.1 e.2 h)

/-- After a sequence of `Switch::Debounce` calls containing at least one
off-to-on transition, the `turnedOn` latch is set. -/
lemma Switch.runDebounce_turnedOn_of_edges :
    ∀ (es : List (Nat × Bool)) (sw : Switch), 1 ≤ sw.countOnEdges es →
      (sw.runDebounce es).turnedOn = true := by
  intro es
  induction es with
  | nil => intro sw h; exact absurd h (by simp [Switch.countOnEdges])
  | cons e rest ih =>
    intro sw h
    by_cases he : (sw.debounceStep e.1 e.2).2.2.1 = true
    · exact Switch.runDebounce_turnedOn_mono rest _
        (sw.debounceStep_turnedOn_set e.1 e.2 he)
    · apply ih
      simpa [Switch.countOnEdges, he] using h

/-- After a sequence of `Switch::Debounce` calls containing at least one
on-to-off transition, the `turnedOff` latch is set. -/
lemma Switch.runDebounce_turnedOff_of_edges :
    ∀ (es : List (Nat × Bool)) (sw : Switch), 1 ≤ sw.countOffEdges es →
      (sw.runDebounce es).turnedOff = true := by
  intro es
  induction es with
  | nil => intro sw h; exact absurd h (by simp [Switch.countOffEdges])
  | cons e rest ih =>
    intro sw h
    by_cases he : (sw.debounceStep e.1 e.2).2.2.2 = true
    · exact Switch.runDebounce_turnedOff_mono rest _
        (sw.debounceStep_turnedOff_set e.1 e.2 he)
    · apply ih
      simpa [Switch.countOffEdges, he] using h

/-- `Gate::Process` never clears the `turnedOn` latch. -/
lemma Gate.process_turnedOn_mono (g : Gate) (t : Nat) (isHigh : Bool)
    (h : g.turnedOn = true) : (g.process t isHigh).turnedOn = true := by
  simp only [Gate.process]
  split
  · split <;> simp [h]
  · exact h

/-- `Gate::Process` never clears the `turnedOff` latch. -/
lemma Gate.process_turnedOff_mono (g : Gate) (t : Nat) (isHigh : Bool)
    (h : g.turnedOff = true) : (g.process t isHigh).turnedOff = true := by
  simp only [Gate.process]
  split
  · split <;> simp [h]
  · exact h

/-- Every step of the switching/dispatch interleaving preserves the
safety invariant. -/
lemma ProgStep.preserves_inv {c c2 : ProgCfg} (hstep : ProgStep c c2)
    (hinv : ProgInv c) : ProgInv c2 := by
  obtain ⟨h1, h2⟩ := hinv
  cases hstep with
  | start prog c h => exact ⟨h1, by intro p hp; simp at hp⟩
  | clear prog c h =>
    refine ⟨by intro p hp; simp at hp, by intro p hp; simp at hp⟩
  | initSome p c h =>
    refine ⟨?_, ?_⟩
    · intro q hq
      have := h1 q hq
      by_cases hqp : q = p
      · simp [hqp, Function.update]
      · simp [Function.update, hqp, this]
    · intro q hq
      simp at hq
      simp [hq, Function.update]
  | initNone c h =>
    exact ⟨h1, by intro p hp; simp at hp⟩
  | publish prog c h =>
    refine ⟨?_, by intro p hp; simp at hp⟩
    intro p hp
    simp at hp
    exact h2 p (by rw [h, hp])
  | dispatch c => exact ⟨h1, h2⟩

/-- The safety invariant holds in every reachable configuration. -/
lemma ProgReachable.inv {c : ProgCfg} (h : ProgReachable c) : ProgInv c := by
  induction h with
  | init =>
    exact ⟨by intro p hp; simp [ProgCfg.startup] at hp,
           by intro p hp; simp [ProgCfg.startup] at hp⟩
  | step _ hstep ih => exact hstep.preserves_inv ih

/-! ## Claim theorems -/

/-- C4: Feeding the canonical clockwise pin sequence 00→10→11→01→00
through the encoder state machine from `start` yields net +1 and returns
to `start`; the canonical counter-clockwise sequence yields net -1; a
sequence that returns to `start` while its state trajectory never passes
through the detent states `plus`/`minus` (never completes a rotation)
yields net 0; and a non-zero increment is emitted only on the transitions
`cw1 → plus` (+1) and `ccw1 → minus` (-1). -/
theorem C4_quadrature_monotonicity :
    (runEncoder EState.start
      [(true, false), (true, true), (false, true), (false, false)]
      = (EState.start, 1)) ∧
    (runEncoder EState.start
      [(false, true), (true, true), (true, false), (false, false)]
      = (EState.start, -1)) ∧
    (∀ seq : List (Bool × Bool),
      (runEncoder EState.start seq).1 = EState.start →
      (∀ st ∈ encoderTrace EState.start seq,
        st ≠ EState.plus ∧ st ≠ EState.minus) →
      (runEncoder EState.start seq).2 = 0) ∧
    (∀ (s : EState) (a b : Bool),
      (updateEncoderState s a b).2 ≠ 0 →
      (s = EState.cw1 ∧ (updateEncoderState s a b).1 = EState.plus ∧
        (updateEncoderState s a b).2 = 1) ∨
      (s = EState.ccw1 ∧ (updateEncoderState s a b).1 = EState.minus ∧
        (updateEncoderState s a b).2 = -1)) := by
  refine ⟨by decide, by decide, ?_, by decide⟩
  intro seq _ htr
  exact runEncoder_no_detent seq EState.start htr

/-- C4 witness: the sequence 00→10→00 (a half-step forth and back)
returns to `start` without passing `plus`/`minus` and yields net 0. -/
theorem C4_quadrature_monotonicity_witness :
    (runEncoder EState.start [(true, false), (false, false)]).1 = EState.start ∧
    (runEncoder EState.start [(true, false), (false, false)]).2 = 0 :=
  ⟨by decide,
   C4_quadrature_monotonicity.2.2.1 [(true, false), (false, false)]
     (by decide) (by decide)⟩

/-- C5: In one scheduler pass (`runAll`), every task is ticked exactly
once (one result entry per task, each the `tick` of that task with the
`now` fetched at the start of the pass); a tick runs `execute()` iff
`now >= timer`; when it runs, the next-due timestamp becomes the
dispatch-time sample plus the task's interval; when it does not run, the
task is unchanged. -/
theorem C5_scheduler_tick_law :
    (∀ (now : Nat) (tasks : List (Task × Nat)),
      (runAll now tasks).length = tasks.length) ∧
    (∀ (now : Nat) (tasks : List (Task × Nat)) (i : Nat)
        (hi : i < tasks.length) (hi2 : i < (runAll now tasks).length),
      (runAll now tasks).get ⟨i, hi2⟩
        = (tasks.get ⟨i, hi⟩).1.tick now (tasks.get ⟨i, hi⟩).2) ∧
    (∀ (tk : Task) (now dn : Nat),
      ((tk.tick now dn).2 = true ↔ tk.timer ≤ now) ∧
      (tk.timer ≤ now → (tk.tick now dn).1.timer = dn + tk.interval) ∧
      (¬ tk.timer ≤ now → (tk.tick now dn).1 = tk)) := by
  refine ⟨runAll_length, fun now tasks => runAll_get tasks now, ?_⟩
  intro tk now dn
  refine ⟨?_, ?_, ?_⟩
  · constructor
    · intro h
      by_contra hlt
      simp [Task.tick, hlt] at h
    · intro h
      simp [Task.tick, h]
  · intro h
    simp [Task.tick, h]
  · intro h
    simp [Task.tick, h]

/-- C5 witness: a task due at 100 with interval 50 runs in a pass at
`now = 100` and is re-armed for dispatch time 120 + 50. -/
theorem C5_scheduler_tick_law_witness :
    ((Task.mk 50 100).tick 100 120).2 = true ∧
    ((Task.mk 50 100).tick 100 120).1.timer = 120 + 50 :=
  ⟨(C5_scheduler_tick_law.2.2 (Task.mk 50 100) 100 120).1.mpr (by decide),
   (C5_scheduler_tick_law.2.2 (Task.mk 50 100) 100 120).2.1 (by decide)⟩

/-- C8: During consecutive `GetChangeAccel` polls that all read a
non-zero change in the same direction starting from a reset run counter,
the fourth and every later poll reports the raw change times the factor 5
while the first three are unscaled; a poll reading zero resets the run
counter, so the next non-zero poll is unscaled. -/
theorem C8_accel_scaling :
    (∀ (cs : List Int), (∀ c ∈ cs, c ≠ 0) →
      ((∀ c ∈ cs, 0 < c) ∨ (∀ c ∈ cs, c < 0)) →
      ∀ (i : Nat) (hi : i < cs.length) (hi2 : i < (runAccel 0 cs).1.length),
        (runAccel 0 cs).1.get ⟨i, hi2⟩
          = if fastCountThreshold < i + 1 then cs.get ⟨i, hi⟩ * fastFactor
            else cs.get ⟨i, hi⟩) ∧
    (∀ fc : Nat, getChangeAccel fc 0 = (0, 0)) ∧
    (∀ c : Int, c ≠ 0 → getChangeAccel 0 c = (c, 1)) := by
  refine ⟨?_, ?_, ?_⟩
  · intro cs hnz _ i hi hi2
    simpa using runAccel_get cs 0 i hi hi2 hnz
  · intro fc
    simp [getChangeAccel]
  · intro c hc
    simp [getChangeAccel, hc, fastCountThreshold]

/-- C8 witness: four consecutive +1 polls report 1, 1, 1, 5; a zero poll
resets the counter; the next non-zero poll is unscaled. -/
theorem C8_accel_scaling_witness :
    (runAccel 0 [1, 1, 1, 1]).1.get ⟨3, by decide⟩ = 5 ∧
    getChangeAccel 2 0 = (0, 0) ∧
    getChangeAccel 0 1 = (1, 1) :=
  ⟨(C8_accel_scaling.1 [1, 1, 1, 1] (by decide) (Or.inl (by decide))
      3 (by decide) (by decide)).trans (by decide),
   C8_accel_scaling.2.1 2,
   C8_accel_scaling.2.2 1 (by decide)⟩

/-- C9: `ProcessArgs::GateOn` and `GateOff` return `false` for any input
index at or beyond `_inCount`, for every stored flag state, and return
the stored flag for an in-range index. -/
theorem C9_gate_index_neutral :
    (∀ (a : ProcessArgs) (input : Nat), inCount ≤ input →
      a.GateOn input = false ∧ a.GateOff input = false) ∧
    (∀ (a : ProcessArgs) (input : Nat) (h : input < inCount),
      a.GateOn input = a.fGateOn ⟨input, h⟩ ∧
      a.GateOff input = a.fGateOff ⟨input, h⟩) := by
  constructor
  · intro a input h
    have hn : ¬ input < inCount := Nat.not_lt.mpr h
    exact ⟨by simp [ProcessArgs.GateOn, hn], by simp [ProcessArgs.GateOff, hn]⟩
  · intro a input h
    exact ⟨by simp [ProcessArgs.GateOn, h], by simp [ProcessArgs.GateOff, h]⟩

/-- C9 witness: index 5 is out of range and reads `false` even with all
on-flags set; index 1 reads the stored flag. -/
theorem C9_gate_index_neutral_witness :
    (cxArgs.GateOn 5 = false ∧ cxArgs.GateOff 5 = false) ∧
    (cxArgs.GateOn 1 = cxArgs.fGateOn ⟨1, by decide⟩ ∧
     cxArgs.GateOff 1 = cxArgs.fGateOff ⟨1, by decide⟩) :=
  ⟨C9_gate_index_neutral.1 cxArgs 5 (by decide),
   C9_gate_index_neutral.2 cxArgs 1 (by decide)⟩

/-- C6: If at least one debounced off-to-on transition occurs between two
consecutive `TurnedOn()` calls (so in particular when two or more occur,
collapsing to a single event), the next `TurnedOn()` returns `true`, and
the call immediately after, with no intervening transition, returns
`false`; symmetrically for `TurnedOff()`. -/
theorem C6_edge_latch_coalescing :
    ∀ (sw : Switch) (es : List (Nat × Bool)),
      (1 ≤ sw.countOnEdges es →
        ((sw.runDebounce es).takeTurnedOn.1 = true ∧
         (((sw.runDebounce es).takeTurnedOn.2).takeTurnedOn.1 = false))) ∧
      (1 ≤ sw.countOffEdges es →
        ((sw.runDebounce es).takeTurnedOff.1 = true ∧
         (((sw.runDebounce es).takeTurnedOff.2).takeTurnedOff.1 = false))) := by
  intro sw es
  constructor
  · intro h
    exact ⟨Switch.runDebounce_turnedOn_of_edges es sw h, rfl⟩
  · intro h
    exact ⟨Switch.runDebounce_turnedOff_of_edges es sw h, rfl⟩

/-- C6 witness: over that sequence the switch sees two off-to-on edges
(and one on-to-off edge); the next `TurnedOn()` returns `true` and the
one after returns `false`, and likewise for `TurnedOff()`. -/
theorem C6_edge_latch_coalescing_witness :
    cxFreshSwitch.countOnEdges cxEdgeSeq = 2 ∧
    (cxFreshSwitch.runDebounce cxEdgeSeq).takeTurnedOn.1 = true ∧
    ((cxFreshSwitch.runDebounce cxEdgeSeq).takeTurnedOn.2).takeTurnedOn.1 = false ∧
    (cxFreshSwitch.runDebounce cxEdgeSeq).takeTurnedOff.1 = true ∧
    ((cxFreshSwitch.runDebounce cxEdgeSeq).takeTurnedOff.2).takeTurnedOff.1 = false := by
  have hon := (C6_edge_latch_coalescing cxFreshSwitch cxEdgeSeq).1 (by decide)
  have hoff := (C6_edge_latch_coalescing cxFreshSwitch cxEdgeSeq).2 (by decide)
  exact ⟨by decide, hon.1, hon.2, hoff.1, hoff.2⟩

/-- C7: The audio dispatch with no current program refreshes the gates
(each exactly once, by `updateGates`) and leaves the output buffer
exactly as the caller passed it; with a current program `p`, it is
exactly gate refresh, then `makeProcessArgs` — whose flag arrays are the
take-and-reset snapshots of the CV1-gate, CV2-gate and button latches,
each cleared exactly once, with the remaining gate trackers untouched —
then `p`'s `Process` on those arguments. -/
theorem C7_processing_callback_order :
    (∀ (s : HWState) (t : Fin numGateInputs → Nat) (raw : Fin numGateInputs → Bool)
        (inbuf outbuf : List Int),
      processingCallback none s t raw inbuf outbuf = (updateGates s t raw, outbuf)) ∧
    (∀ (p : Prog) (s : HWState) (t : Fin numGateInputs → Nat)
        (raw : Fin numGateInputs → Bool) (inbuf outbuf : List Int),
      processingCallback (some p) s t raw inbuf outbuf
        = ((makeProcessArgs (updateGates s t raw) inbuf).2,
           p.processFn (makeProcessArgs (updateGates s t raw) inbuf).1 outbuf)) ∧
    (∀ (s : HWState) (inbuf : List Int),
      ((makeProcessArgs s inbuf).1.inbuf = inbuf) ∧
      ((makeProcessArgs s inbuf).1.fGateOn 0 = (s.gates 0).turnedOn) ∧
      ((makeProcessArgs s inbuf).1.fGateOn 1 = (s.gates 1).turnedOn) ∧
      ((makeProcessArgs s inbuf).1.fGateOn 2 = s.button.turnedOn) ∧
      ((makeProcessArgs s inbuf).1.fGateOff 0 = (s.gates 0).turnedOff) ∧
      ((makeProcessArgs s inbuf).1.fGateOff 1 = (s.gates 1).turnedOff) ∧
      ((makeProcessArgs s inbuf).1.fGateOff 2 = s.button.turnedOff) ∧
      (((makeProcessArgs s inbuf).2.gates 0).turnedOn = false) ∧
      (((makeProcessArgs s inbuf).2.gates 0).turnedOff = false) ∧
      (((makeProcessArgs s inbuf).2.gates 1).turnedOn = false) ∧
      (((makeProcessArgs s inbuf).2.gates 1).turnedOff = false) ∧
      ((makeProcessArgs s inbuf).2.button.turnedOn = false) ∧
      ((makeProcessArgs s inbuf).2.button.turnedOff = false) ∧
      ((makeProcessArgs s inbuf).2.gates 2 = s.gates 2) ∧
      ((makeProcessArgs s inbuf).2.gates 3 = s.gates 3) ∧
      (((makeProcessArgs s inbuf).2.gates 0).deb = (s.gates 0).deb) ∧
      (((makeProcessArgs s inbuf).2.gates 1).deb = (s.gates 1).deb) ∧
      ((makeProcessArgs s inbuf).2.button.deb = s.button.deb)) :=
  ⟨fun _ _ _ _ _ => rfl,
   fun _ _ _ _ _ _ => rfl,
   fun _ _ => ⟨rfl, rfl, rfl, rfl, rfl, rfl, rfl, rfl, rfl, rfl, rfl, rfl, rfl,
     rfl, rfl, rfl, rfl, rfl⟩⟩

/-- C10: A dispatch with no current program take-and-resets no latch:
any gate latch that is set stays set and the button is untouched
entirely; and once a program becomes current, the first dispatch delivers
the pending edge in its `ProcessArgs` (flag `true`) and clears the
latch. -/
theorem C10_latches_survive_idle_dispatch :
    (∀ (s : HWState) (t : Fin numGateInputs → Nat) (raw : Fin numGateInputs → Bool)
        (inbuf outbuf : List Int) (i : Fin numGateInputs),
      ((s.gates i).turnedOn = true →
        ((processingCallback none s t raw inbuf outbuf).1.gates i).turnedOn = true) ∧
      ((s.gates i).turnedOff = true →
        ((processingCallback none s t raw inbuf outbuf).1.gates i).turnedOff = true)) ∧
    (∀ (s : HWState) (t : Fin numGateInputs → Nat) (raw : Fin numGateInputs → Bool)
        (inbuf outbuf : List Int),
      (processingCallback none s t raw inbuf outbuf).1.button = s.button) ∧
    (∀ (p : Prog) (s : HWState) (t : Fin numGateInputs → Nat)
        (raw : Fin numGateInputs → Bool) (inbuf outbuf : List Int),
      ((s.gates 0).turnedOn = true →
        (makeProcessArgs (updateGates s t raw) inbuf).1.fGateOn 0 = true ∧
        ((makeProcessArgs (updateGates s t raw) inbuf).2.gates 0).turnedOn = false) ∧
      ((s.gates 1).turnedOn = true →
        (makeProcessArgs (updateGates s t raw) inbuf).1.fGateOn 1 = true ∧
        ((makeProcessArgs (updateGates s t raw) inbuf).2.gates 1).turnedOn = false) ∧
      ((s.gates 0).turnedOff = true →
        (makeProcessArgs (updateGates s t raw) inbuf).1.fGateOff 0 = true ∧
        ((makeProcessArgs (updateGates s t raw) inbuf).2.gates 0).turnedOff = false) ∧
      ((s.gates 1).turnedOff = true →
        (makeProcessArgs (updateGates s t raw) inbuf).1.fGateOff 1 = true ∧
        ((makeProcessArgs (updateGates s t raw) inbuf).2.gates 1).turnedOff = false) ∧
      (s.button.turnedOn = true →
        (makeProcessArgs (updateGates s t raw) inbuf).1.fGateOn 2 = true ∧
        (makeProcessArgs (updateGates s t raw) inbuf).2.button.turnedOn = false) ∧
      (s.button.turnedOff = true →
        (makeProcessArgs (updateGates s t raw) inbuf).1.fGateOff 2 = true ∧
        (makeProcessArgs (updateGates s t raw) inbuf).2.button.turnedOff = false) ∧
      (processingCallback (some p) s t raw inbuf outbuf
        = ((makeProcessArgs (updateGates s t raw) inbuf).2,
           p.processFn (makeProcessArgs (updateGates s t raw) inbuf).1 outbuf))) := by
  refine ⟨?_, fun _ _ _ _ _ => rfl, ?_⟩
  · intro s t raw inbuf outbuf i
    exact ⟨fun h => Gate.process_turnedOn_mono _ _ _ h,
           fun h => Gate.process_turnedOff_mono _ _ _ h⟩
  · intro p s t raw inbuf outbuf
    refine ⟨?_, ?_, ?_, ?_, fun h => ⟨h, rfl⟩, fun h => ⟨h, rfl⟩, rfl⟩
    · intro h
      exact ⟨Gate.process_turnedOn_mono _ _ _ h, rfl⟩
    · intro h
      exact ⟨Gate.process_turnedOn_mono _ _ _ h, rfl⟩
    · intro h
      exact ⟨Gate.process_turnedOff_mono _ _ _ h, rfl⟩
    · intro h
      exact ⟨Gate.process_turnedOff_mono _ _ _ h, rfl⟩

/-- C10 witness: for a state with every latch set, an idle dispatch
leaves the CV1 gate's on-latch set, and once a program is current the
next block's arguments report that edge and clear it. -/
theorem C10_latches_survive_idle_dispatch_witness :
    ((processingCallback none cxHW cxT cxRaw [] []).1.gates 0).turnedOn = true ∧
    (processingCallback none cxHW cxT cxRaw [] []).1.button = cxButton ∧
    (makeProcessArgs (updateGates cxHW cxT cxRaw) []).1.fGateOn 0 = true ∧
    ((makeProcessArgs (updateGates cxHW cxT cxRaw) []).2.gates 0).turnedOn = false :=
  ⟨(C10_latches_survive_idle_dispatch.1 cxHW cxT cxRaw [] [] 0).1 rfl,
   C10_latches_survive_idle_dispatch.2.1 cxHW cxT cxRaw [] [],
   ((C10_latches_survive_idle_dispatch.2.2 cxProg cxHW cxT cxRaw [] []).1 rfl).1,
   ((C10_latches_survive_idle_dispatch.2.2 cxProg cxHW cxT cxRaw [] []).1 rfl).2⟩

/-- C3: `RunProgram` clears the current-program pointer, runs `Init()`,
and only then publishes the program, each as one atomic statement; in
every configuration reachable under any interleaving of these statements
with audio-dispatch steps, a published current program has completed its
`Init()` — so a dispatch never invokes `Process` on an uninitialized
program — and at most one program is current. -/
theorem C3_dispatch_sees_only_initialized (c : ProgCfg) (h : ProgReachable c) :
    (∀ p, c.currentProgram = some p → c.inited p = true) ∧
    (∀ p q, c.currentProgram = some p → c.currentProgram = some q → p = q) := by
  refine ⟨h.inv.1, ?_⟩
  intro p q hp hq
  rw [hp] at hq
  exact Option.some.inj hq

/-- C3 witness: after one complete `RunProgram(7)` from startup the
configuration is reachable, program 7 is current, and it has indeed
completed its `Init()`. -/
theorem C3_dispatch_sees_only_initialized_witness : cxCfg7.inited 7 = true := by
  have h0 : ProgReachable ProgCfg.startup := ProgReachable.init
  have h1 := ProgReachable.step h0 (ProgStep.start (some 7) ProgCfg.startup rfl)
  have h2 := ProgReachable.step h1 (ProgStep.clear (some 7) _ rfl)
  have h3 := ProgReachable.step h2 (ProgStep.initSome 7 _ rfl)
  have h4 := ProgReachable.step h3 (ProgStep.publish (some 7) _ rfl)
  have hreach : ProgReachable cxCfg7 := h4
  exact (C3_dispatch_sees_only_initialized cxCfg7 hreach).1 7 rfl

/-- C1 counterexample: a debouncer transitions to `highSettling` at time
0 (the `Debounce` call reports the change), is then checked at 1500 and
again at 2500.  At the 2500 check the elapsed time since the transition
(2500 µs) exceeds the 2000 µs settling threshold, so the claim requires
the state to have reverted to `high`; the code leaves it in
`highSettling`, because `CheckSettled` measures from the previous check
(at 1500), not from the transition. -/
theorem C1_settling_not_from_transition_cx :
    ((Debouncer.mk DebState.low 0).debounce 0 1).2.2 = true ∧
    (((Debouncer.mk DebState.low 0).debounce 0 1).1).state = DebState.highSettling ∧
    dtSettlingTime < 2500 - 0 ∧
    cxDebouncerAfter.state = DebState.highSettling ∧
    cxDebouncerAfter.state ≠ DebState.high := by decide

/-- C1 (amended): a `*Settling` state reverts to its stable counterpart
on a `GetValue` or `Debounce` call exactly when at least 2000 µs
(boundary inclusive) have elapsed since the previous check — the time of
the last `Debounce`/`GetValue` call — not since the last observed
transition; a `Debounce` call carrying a new edge may then immediately
move the just-reverted state into the opposite settling state. -/
theorem C1_settling_reverts_iff_quiet_since_last_check :
    ∀ (d : Debouncer) (t : Nat) (u : Int), d.tLastCheck ≤ t →
      (d.state = DebState.highSettling →
        ((d.getValue t).1.state
            = if dtSettlingTime ≤ t - d.tLastCheck then DebState.high
              else DebState.highSettling) ∧
        ((d.debounce t u).1.state
            = if dtSettlingTime ≤ t - d.tLastCheck then
                (if u < 0 then DebState.lowSettling else DebState.high)
              else DebState.highSettling)) ∧
      (d.state = DebState.lowSettling →
        ((d.getValue t).1.state
            = if dtSettlingTime ≤ t - d.tLastCheck then DebState.low
              else DebState.lowSettling) ∧
        ((d.debounce t u).1.state
            = if dtSettlingTime ≤ t - d.tLastCheck then
                (if 0 < u then DebState.highSettling else DebState.low)
              else DebState.lowSettling)) := by
  intro d t u _
  constructor
  · intro hs
    constructor
    · by_cases hc : dtSettlingTime ≤ t - d.tLastCheck <;>
        simp [Debouncer.getValue, Debouncer.checkSettled, hs, hc]
    · by_cases hc : dtSettlingTime ≤ t - d.tLastCheck
      · by_cases hu : u < 0 <;>
          simp [Debouncer.debounce, Debouncer.checkSettled, hs, hc, hu]
      · simp [Debouncer.debounce, Debouncer.checkSettled, hs, hc]
  · intro hs
    constructor
    · by_cases hc : dtSettlingTime ≤ t - d.tLastCheck <;>
        simp [Debouncer.getValue, Debouncer.checkSettled, hs, hc]
    · by_cases hc : dtSettlingTime ≤ t - d.tLastCheck
      · by_cases hu : 0 < u <;>
          simp [Debouncer.debounce, Debouncer.checkSettled, hs, hc, hu]
      · simp [Debouncer.debounce, Debouncer.checkSettled, hs, hc]

/-- C1 witness: a debouncer in `highSettling` last checked at time 0 and
next checked at 2500 reverts to `high` on `GetValue`, and a `Debounce`
call with a falling edge at 2500 reverts and immediately enters
`lowSettling`. -/
theorem C1_settling_reverts_witness :
    ((Debouncer.mk DebState.highSettling 0).getValue 2500).1.state = DebState.high ∧
    ((Debouncer.mk DebState.highSettling 0).debounce 2500 (-1)).1.state
      = DebState.lowSettling :=
  ⟨(((C1_settling_reverts_iff_quiet_since_last_check
      (Debouncer.mk DebState.highSettling 0) 2500 (-1) (by decide)).1 rfl).1).trans
      (by decide),
   (((C1_settling_reverts_iff_quiet_since_last_check
      (Debouncer.mk DebState.highSettling 0) 2500 (-1) (by decide)).1 rfl).2).trans
      (by decide)⟩

/-- C2 counterexample: registering handler 1 for pin 3 on port 0 and then
handler 2 for pin 3 on port 1 overwrites the shared per-pin-number slot;
an edge on interrupt line 3 then invokes only handler 2 — handler 1
receives no notification, contradicting the claim that both registered
handlers receive their individual notifications (the diagnostic warning
is indeed raised at the second registration). -/
theorem C2_alias_both_notified_cx :
    (callIrqHandler (gpioInitIrq (gpioInitIrq cxTbl0 cxPinA (some 1)).1
        cxPinB (some 2)).1 3 = some 2) ∧
    (callIrqHandler (gpioInitIrq (gpioInitIrq cxTbl0 cxPinA (some 1)).1
        cxPinB (some 2)).1 3 ≠ some 1) ∧
    ((gpioInitIrq (gpioInitIrq cxTbl0 cxPinA (some 1)).1 cxPinB (some 2)).2 = true) := by
  decide

/-- C2 (amended): when two valid pins sharing a pin number are registered
in turn, the second registration raises the diagnostic warning and
overwrites the slot, so an edge on that interrupt line notifies only the
most recently registered handler (never the earlier one); and
`IsIrqAvailable(pin)` returns true exactly when the pin is valid and no
handler is registered for its pin number. -/
theorem C2_alias_last_registration_wins :
    (∀ (tbl : IrqTable) (p1 p2 : Pin) (h1 h2 : Nat),
      p1.valid = true → p2.valid = true → p1.pinNum = p2.pinNum →
      (callIrqHandler (gpioInitIrq (gpioInitIrq tbl p1 (some h1)).1 p2 (some h2)).1
          p2.pinNum.val = some h2) ∧
      ((gpioInitIrq (gpioInitIrq tbl p1 (some h1)).1 p2 (some h2)).2 = true) ∧
      (h1 ≠ h2 →
        callIrqHandler (gpioInitIrq (gpioInitIrq tbl p1 (some h1)).1 p2 (some h2)).1
          p1.pinNum.val ≠ some h1)) ∧
    (∀ (tbl : IrqTable) (p : Pin),
      isIrqAvailable tbl p = true ↔ (p.valid = true ∧ tbl p.pinNum = none)) := by
  constructor
  · intro tbl p1 p2 h1 h2 hv1 hv2 hpin
    have e1 : (gpioInitIrq tbl p1 (some h1)).1 = Function.update tbl p1.pinNum (some h1) := by
      simp [gpioInitIrq, hv1]
    have hslot : Function.update tbl p1.pinNum (some h1) p2.pinNum = some h1 := by
      rw [← hpin, Function.update_same]
    have e2 : (gpioInitIrq (gpioInitIrq tbl p1 (some h1)).1 p2 (some h2)).1
        = Function.update (Function.update tbl p1.pinNum (some h1)) p2.pinNum (some h2) := by
      rw [e1]; simp [gpioInitIrq, hv2]
    have hcall : callIrqHandler (gpioInitIrq (gpioInitIrq tbl p1 (some h1)).1
        p2 (some h2)).1 p2.pinNum.val = some h2 := by
      rw [e2]
      simp [callIrqHandler, p2.pinNum.isLt, Fin.eta]
    refine ⟨hcall, ?_, ?_⟩
    · rw [e1]
      simp [gpioInitIrq, hv2, isIrqAvailable, hslot]
    · intro hne
      have : callIrqHandler (gpioInitIrq (gpioInitIrq tbl p1 (some h1)).1
          p2 (some h2)).1 p1.pinNum.val = some h2 := by
        rw [hpin]; exact hcall
      rw [this]
      intro hcontra
      exact hne (Option.some.inj hcontra).symm
  · intro tbl p
    simp [isIrqAvailable, Bool.and_eq_true, Option.isNone_iff_eq_none]

/-- C2 amended witness: the two concrete aliased pins from the
counterexample scenario satisfy the amended statement, and the empty
table reports pin A's interrupt as available. -/
theorem C2_alias_last_registration_wins_witness :
    (callIrqHandler (gpioInitIrq (gpioInitIrq cxTbl0 cxPinA (some 1)).1
        cxPinB (some 2)).1 cxPinB.pinNum.val = some 2) ∧
    isIrqAvailable cxTbl0 cxPinA = true :=
  ⟨(C2_alias_last_registration_wins.1 cxTbl0 cxPinA cxPinB 1 2 rfl rfl rfl).1,
   (C2_alias_last_registration_wins.2 cxTbl0 cxPinA).mpr ⟨rfl, rfl⟩⟩

end DatTing
